import Mathlib

/-!
Verification development for the camp-finder availability scanner
(src/scanner.py).

Shallow embedding conventions:
* a Python `datetime` at midnight is a triple of naturals (year, month,
  day); comparison is lexicographic, exactly as Python compares
  datetimes whose time parts are equal (all times in this program are
  00:00:00);
* `datetime.strptime` for the two fixed formats used by the program is
  modelled after CPython's `_strptime` machinery: `%Y` matches exactly
  four `\d` digits, `%m` matches the regex `1[0-2]|0[1-9]|[1-9]`, `%d`
  matches `3[0-1]|[1-2]\d|0[1-9]|[1-9]| [1-9]` (note the space-padded
  last alternative), where `\d` is any Unicode decimal digit (category
  Nd) while explicit ranges like `[1-9]` are ASCII-literal; the format
  is compiled with `re.IGNORECASE`, so the literal `T` and `Z` also
  match their lowercase forms; the whole input must be consumed, and
  the matched fields must form a valid calendar date (`datetime`
  construction raises otherwise, e.g. for February 30 or year 0);
* uncaught Python exceptions are modelled by `Option` (`none` = the run
  aborts with an unhandled error);
* Python dicts are insertion-ordered association lists; `setdefault`
  followed by in-place `+=` keeps the key at its position and appends.
-/

/-- A Python `datetime` at midnight: only year, month and day matter in
this program, since every datetime it builds or parses has time
00:00:00. -/
structure DT where
  year : Nat
  month : Nat
  day : Nat
deriving DecidableEq, Repr

/-- Python `a < b` on midnight datetimes: lexicographic on
(year, month, day). -/
def DT.ltb (a b : DT) : Bool :=
  decide (a.year < b.year ∨ (a.year = b.year ∧
    (a.month < b.month ∨ (a.month = b.month ∧ a.day < b.day))))

/-- Python `a <= b` on midnight datetimes. -/
def DT.leb (a b : DT) : Bool :=
  DT.ltb a b || decide (a = b)

/-- Gregorian leap-year rule, as used by Python's `datetime`. -/
def isLeap (y : Nat) : Bool :=
  y % 4 == 0 && (y % 100 != 0 || y % 400 == 0)

/-- Number of days of month `m` of year `y` (Python
`calendar.monthrange` semantics, used by `datetime` validation). -/
def daysInMonth (y m : Nat) : Nat :=
  if m = 2 then (if isLeap y then 29 else 28)
  else if m = 4 ∨ m = 6 ∨ m = 9 ∨ m = 11 then 30
  else 31

/-- Value of an ASCII digit character, `none` for a non-digit.  This
is what the explicit character ranges of the strptime regexes (such as
`[1-9]`, `[0-2]`, `0`, `3`) match: ranges and literal digits in a
Python regex are ASCII code points, unlike `\d`. -/
def charDigit (c : Char) : Option Nat :=
  if 48 ≤ c.toNat ∧ c.toNat ≤ 57 then some (c.toNat - 48) else none

/-- Code points of the digit-zero characters of Unicode category Nd,
as matched by `\d` in the program's CPython: every decimal digit lies
in a run of ten consecutive code points starting at one of these, its
value being the offset into the run (table generated from this
CPython's `re`/`unicodedata`). -/
def digitZeroStarts : List Nat :=
  [48, 1632, 1776, 1984, 2406, 2534, 2662, 2790, 2918, 3046, 3174,
   3302, 3430, 3558, 3664, 3792, 3872, 4160, 4240, 6112, 6160, 6470,
   6608, 6784, 6800, 6992, 7088, 7232, 7248, 42528, 43216, 43264,
   43472, 43504, 43600, 44016, 65296, 66720, 68912, 69734, 69872,
   69942, 70096, 70384, 70736, 70864, 71248, 71360, 71472, 71904,
   72016, 72784, 73040, 73120, 92768, 92864, 93008, 120782, 120792,
   120802, 120812, 120822, 123200, 123632, 125264, 130032]

/-- Value of a character under Python regex `\d` (any Unicode decimal
digit); `int()` converts such a digit to the same value. -/
def unicodeDigit (c : Char) : Option Nat :=
  (digitZeroStarts.find? (fun s =>
    decide (s ≤ c.toNat ∧ c.toNat < s + 10))).map (fun s => c.toNat - s)

/-- CPython strptime `%Y`: exactly four `\d` digits (Unicode decimal
digits; `int()` then combines their values positionally). Returns the
year and the unconsumed input. -/
def parseYear4 : List Char → Option (Nat × List Char)
  | c1 :: c2 :: c3 :: c4 :: rest => do
    let d1 ← unicodeDigit c1
    let d2 ← unicodeDigit c2
    let d3 ← unicodeDigit c3
    let d4 ← unicodeDigit c4
    some (((d1 * 10 + d2) * 10 + d3) * 10 + d4, rest)
  | _ => none

/-- CPython strptime `%m`: the regex `1[0-2]|0[1-9]|[1-9]` (all
alternatives ASCII: `%m` contains no `\d`), first alternative wins.
Ordered choice without backtracking is equivalent here because in
both formats the character following the field is `-` or `T`/`t`,
never a digit, so a failed longer alternative can never be rescued by
a shorter one that leaves a digit behind. -/
def parseMonthField : List Char → Option (Nat × List Char)
  | [] => none
  | c1 :: rest1 =>
    match charDigit c1, rest1 with
    | none, _ => none
    | some d1, [] => if 1 ≤ d1 then some (d1, []) else none
    | some d1, c2 :: rest2 =>
      match charDigit c2 with
      | some d2 =>
        if d1 = 1 ∧ d2 ≤ 2 then some (10 + d2, rest2)
        else if d1 = 0 ∧ 1 ≤ d2 then some (d2, rest2)
        else if 1 ≤ d1 then some (d1, c2 :: rest2)
        else none
      | none => if 1 ≤ d1 then some (d1, c2 :: rest2) else none

/-- CPython strptime `%d`: the regex
`3[0-1]|[1-2]\d|0[1-9]|[1-9]| [1-9]`, first alternative wins (same
ordered-choice remark as for the month field; the second character of
the `[1-2]\d` alternative may be any Unicode decimal digit, and the
last alternative accepts a space-padded day, whose `int()` value
ignores the leading space). -/
def parseDayField : List Char → Option (Nat × List Char)
  | [] => none
  | [c1] =>
    match charDigit c1 with
    | some d1 => if 1 ≤ d1 then some (d1, []) else none
    | none => none
  | c1 :: c2 :: rest2 =>
    match charDigit c1 with
    | some d1 =>
      if d1 = 3 ∧ (∃ d2, charDigit c2 = some d2 ∧ d2 ≤ 1) then
        some (30 + (charDigit c2).getD 0, rest2)
      else if (d1 = 1 ∨ d1 = 2) ∧ (unicodeDigit c2).isSome then
        some (10 * d1 + (unicodeDigit c2).getD 0, rest2)
      else if d1 = 0 ∧ (∃ d2, charDigit c2 = some d2 ∧ 1 ≤ d2) then
        some ((charDigit c2).getD 0, rest2)
      else if 1 ≤ d1 then some (d1, c2 :: rest2)
      else none
    | none =>
      if c1 = ' ' ∧ (∃ d2, charDigit c2 = some d2 ∧ 1 ≤ d2) then
        some ((charDigit c2).getD 0, rest2)
      else none

/-- Consume one expected literal character of the format string.
CPython compiles the strptime regex with `re.IGNORECASE`, so a cased
literal also matches its other case; for the literals of these two
formats (`-`, `:`, `0`, `T`, `Z`) the only case-insensitive matches
beyond the literal itself are the ASCII case pairs of `T` and `Z` (no
other Unicode character case-folds to them), so ASCII case folding is
exact here. -/
def expectChar (c : Char) : List Char → Option (List Char)
  | x :: rest =>
    if x = c ∨ (65 ≤ c.toNat ∧ c.toNat ≤ 90 ∧ x.toNat = c.toNat + 32) ∨
        (97 ≤ c.toNat ∧ c.toNat ≤ 122 ∧ x.toNat = c.toNat - 32) then
      some rest
    else none
  | [] => none

/-- Consume an expected literal run of the format string. -/
def expectLiteral : List Char → List Char → Option (List Char)
  | [], cs => some cs
  | l :: ls, cs => (expectChar l cs).bind (expectLiteral ls)

/-- Validation performed by `datetime(year, month, day)` construction:
year in 1..9999 and day within the month (month bounds 1..12 are
already guaranteed by the `%m` regex in our flows, and are re-checked
here just as `datetime` does). -/
def mkValidDate (y m d : Nat) : Option DT :=
  if 1 ≤ y ∧ y ≤ 9999 ∧ 1 ≤ m ∧ m ≤ 12 ∧ 1 ≤ d ∧ d ≤ daysInMonth y m then
    some ⟨y, m, d⟩
  else none

/-- Shared `%Y-%m-%d` fragment of both formats: fields plus the
unconsumed remainder of the input. -/
def parseYMD (cs : List Char) : Option (Nat × Nat × Nat × List Char) := do
  let (y, cs1) ← parseYear4 cs
  let cs2 ← expectChar (Char.ofNat 45) cs1
  let (m, cs3) ← parseMonthField cs2
  let cs4 ← expectChar (Char.ofNat 45) cs3
  let (d, cs5) ← parseDayField cs4
  some (y, m, d, cs5)

/-- Embeds `datetime.strptime(s, "%Y-%m-%dT00:00:00Z")` (scanner.py,
`date_in_range`): `none` means the call raises `ValueError`. -/
def strptimeAvail (s : String) : Option DT := do
  let (y, m, d, rest) ← parseYMD s.data
  let rest2 ← expectLiteral "T00:00:00Z".data rest
  if rest2 = [] then mkValidDate y m d else none

/-- Embeds `datetime.strptime(s, "%Y-%m-%d")` (scanner.py, `driver`,
parsing the caller's start/end inputs). -/
def strptimeYMD (s : String) : Option DT := do
  let (y, m, d, rest) ← parseYMD s.data
  if rest = [] then mkValidDate y m d else none

/-- Embeds `date_in_range(start_date, end_date, date_str)`
(scanner.py lines 90-98): parse the date string with the fixed format,
then `False` if `end_date < date or start_date > date`, else `True`.
A parse failure propagates as an unhandled exception (`none`). -/
def date_in_range (start_date end_date : DT) (date_str : String) :
    Option Bool := do
  let date ← strptimeAvail date_str
  if DT.ltb end_date date || DT.ltb date start_date then some false
  else some true

/-- One site's raw data: its `availabilities` dict, an
insertion-ordered map from date string to status string. -/
structure SiteData where
  availabilities : List (String × String)
deriving DecidableEq, Repr

/-- One raw month record: its `campsites` dict, an insertion-ordered
map from site id to site data. -/
structure MonthData where
  campsites : List (String × SiteData)
deriving DecidableEq, Repr

/-- The Availability Result: insertion-ordered mapping from site id to
its list of available date strings. -/
abbrev AvailResult := List (String × List String)

/-- Embeds `data.setdefault(site_id, []); curr_site += dates`
(scanner.py lines 86-87): if the key is present its value is extended
in place (the key keeps its position), otherwise the key is inserted
at the end with the new dates. -/
def setdefaultAppend (data : AvailResult) (site_id : String)
    (dates : List String) : AvailResult :=
  match data with
  | [] => [(site_id, dates)]
  | (k, v) :: rest =>
    if k = site_id then (k, v ++ dates) :: rest
    else (k, v) :: setdefaultAppend rest site_id dates

/-- Embeds the inner loop of `filter_data` over one site's
`availabilities` (scanner.py lines 74-83): for each (date, status)
pair, first the range check (which parses the date and may raise),
then the status check, then the append. -/
def collectDates (start_date end_date : DT)
    (avail : List (String × String)) : Option (List String) :=
  avail.foldlM (fun dates p => do
    let ok ← date_in_range start_date end_date p.1
    if !ok then pure dates
    else if p.2 ≠ "Available" then pure dates
    else pure (dates ++ [p.1])) []

/-- Embeds one iteration of `filter_data`'s outer loop (scanner.py
lines 70-87): process one month record's campsites into the
accumulated result dict. -/
def stepRecord (start_date end_date : DT) (data : AvailResult)
    (m : MonthData) : Option AvailResult :=
  m.campsites.foldlM (fun data p => do
    let dates ← collectDates start_date end_date p.2.availabilities
    pure (if dates.isEmpty then data
          else setdefaultAppend data p.1 dates)) data

/-- Embeds `filter_data(raw_data, start_date, end_date)` (scanner.py
lines 59-88). `none` models the unhandled `ValueError` raised on a
malformed availability date string. -/
def filter_data (raw_data : List MonthData) (start_date end_date : DT) :
    Option AvailResult :=
  raw_data.foldlM (stepRecord start_date end_date) []

/-- Lookup in an insertion-ordered association result (observation
helper for stating properties about `filter_data`'s output). -/
def lookupSite (data : AvailResult) (site_id : String) :
    Option (List String) :=
  match data with
  | [] => none
  | (k, v) :: rest => if k = site_id then some v else lookupSite rest site_id

/-- Month counter: months elapsed since year 0, so that the sequence
of first-of-month markers is in bijection with an interval of naturals.
Proof-side helper (not part of the source). -/
def monthIdx (d : DT) : Nat := d.year * 12 + (d.month - 1)

/-- First-of-month marker with the given month counter. Proof-side
helper (not part of the source). -/
def ofMonthIdx (n : Nat) : DT := ⟨n / 12, n % 12 + 1, 1⟩

/-- One step of `dateutil.rrule(MONTHLY)` from a first-of-month
datetime: same day (the 1st), next calendar month. -/
def addMonth1 (d : DT) : DT :=
  if d.month = 12 then ⟨d.year + 1, 1, d.day⟩
  else ⟨d.year, d.month + 1, d.day⟩

/-- Generator loop for the monthly rrule, with explicit fuel: emit
the current first-of-month datetime while it is `<= until` and step
one month. A real Python `datetime` always has its month in 1..12 (an
invariant `addMonth1` preserves), so the month guard never fails on a
reachable call; it only keeps the fuel bound exact over the
representation type, whose months are arbitrary naturals. -/
def rruleMonthlyAux : Nat → DT → DT → List DT
  | 0, _, _ => []
  | Nat.succ fuel, cur, u =>
    if 1 ≤ cur.month ∧ cur.month ≤ 12 ∧ DT.leb cur u = true then
      cur :: rruleMonthlyAux fuel (addMonth1 cur) u
    else []

/-- Embeds `list(rrule.rrule(rrule.MONTHLY, dtstart=cur, until=u))`
(scanner.py line 126): occurrences start at `dtstart` and step one
calendar month, and the list keeps those `<= until`; empty when
`dtstart > until`. The fuel `monthIdx u + 1 - monthIdx cur` is exactly
the number of months to emit (each valid step raises `monthIdx` by
one, and once it exceeds `monthIdx u` the `<= until` guard fails), so
the bounded loop equals the unbounded rrule generator. -/
def rruleMonthly (cur u : DT) : List DT :=
  rruleMonthlyAux (monthIdx u + 1 - monthIdx cur) cur u

/-- Embeds `datetime(start_date.year, start_date.month, 1)`
(scanner.py line 125). -/
def startOfMonth (d : DT) : DT := ⟨d.year, d.month, 1⟩

/-- A JSON value, as produced by `resp.json()`. -/
inductive Json where
  | null : Json
  | bool : Bool → Json
  | num : Int → Json
  | str : String → Json
  | arr : List Json → Json
  | obj : List (String × Json) → Json

/-- Python truthiness of a JSON value (`if resp:`): `None`, `False`,
`0`, `""`, `[]` and `{}` are falsy, everything else truthy.
Truthiness of a JSON value never looks below the top constructor. -/
def pyTruthy : Json → Bool
  | Json.null => false
  | Json.bool b => b
  | Json.num n => n != 0
  | Json.str s => s ≠ ""
  | Json.arr xs => !xs.isEmpty
  | Json.obj fs => !fs.isEmpty

/-- An HTTP response as seen through `requests`: status code and the
JSON body that `resp.json()` would produce. -/
structure HttpResp where
  status : Nat
  body : Json

/-- Embeds `send_request` (scanner.py lines 38-47): the parsed JSON
body on a 200 status, otherwise Python `False` (the status is printed,
a side effect not modelled). `False` is embedded as `none`; the only
use sites either test truthiness (where `none` and a falsy body
coincide with Python) or subscript the value (where `False` raises,
i.e. `none`). -/
def send_request (resp : HttpResp) : Option Json :=
  if resp.status = 200 then some resp.body else none

/-- Embeds `get_data` (scanner.py lines 14-27) applied to the
responses of the per-month requests, in order: each response goes
through `send_request`, and the result is appended iff it is truthy
(`if resp: data.append(resp)`). -/
def get_data (resps : List HttpResp) : List Json :=
  resps.foldl (fun data r =>
    match send_request r with
    | none => data
    | some j => if pyTruthy j then data ++ [j] else data) []

/-- Python subscript `j[k]` on a JSON value: the value under a string
key of a JSON object; `none` models the `TypeError`/`KeyError` raised
on a non-dict or a missing key. -/
def getKey (j : Json) (k : String) : Option Json :=
  match j with
  | Json.obj fs => lookupField fs k
  | _ => none
where
  lookupField : List (String × Json) → String → Option Json
    | [], _ => none
    | (k', v) :: rest, k => if k' = k then some v else lookupField rest k

/-- The entries of a JSON object (`.items()`); `none` models the
`AttributeError` raised on a non-dict. -/
def asObj : Json → Option (List (String × Json))
  | Json.obj fs => some fs
  | _ => none

/-- A JSON string value. The fields this program reads as strings
(statuses, the facility name) are strings in the provider's API; a
non-string here makes the run model stop (`none`), which restricts the
model to the string-typed responses the claims quantify over. -/
def asStr : Json → Option String
  | Json.str s => some s
  | _ => none

/-- Interpret one site's JSON (`site_data["availabilities"].items()`,
scanner.py line 75) as typed site data. -/
def parseSiteJson (j : Json) : Option SiteData := do
  let av ← getKey j "availabilities"
  let fs ← asObj av
  let pairs ← fs.mapM (fun p => do
    let st ← asStr p.2
    pure (p.1, st))
  pure ⟨pairs⟩

/-- Interpret one raw month response (`month_data["campsites"].items()`,
scanner.py line 72) as a typed month record. In the source these dict
accesses happen inside `filter_data`'s loops; staging them before the
typed filter returns `none` in exactly the runs where the source would
raise inside the loop. -/
def parseMonthJson (j : Json) : Option MonthData := do
  let cs ← getKey j "campsites"
  let fs ← asObj cs
  let sites ← fs.mapM (fun p => do
    let sd ← parseSiteJson p.2
    pure (p.1, sd))
  pure ⟨sites⟩

/-- Embeds `get_campground_name` (scanner.py lines 50-56) applied to
the metadata response: `resp["campground"]["facility_name"]`, where a
non-200 response makes `resp` the value `False` and the subscript
raises. -/
def get_campground_name (resp : HttpResp) : Option String := do
  let j ← send_request resp
  let c ← getKey j "campground"
  let n ← getKey c "facility_name"
  asStr n

/-- Decimal digits of a natural, zero-padded to width `w`. -/
def padNat (w n : Nat) : String :=
  let s := toString n
  let l := s.length
  String.mk (List.replicate (w - l) (Char.ofNat 48)) ++ s

/-- Python `str(datetime)` for a midnight datetime:
`YYYY-MM-DD HH:MM:SS` with the time part `00:00:00` (this is what
`"{}".format(start_date)` interpolates in the summary line,
scanner.py lines 138-141). -/
def pyStrDT (d : DT) : String :=
  padNat 4 d.year ++ "-" ++ padNat 2 d.month ++ "-" ++ padNat 2 d.day ++
    " 00:00:00"

/-- Embeds `format_date` (scanner.py lines 30-35):
`strftime("%Y-%m-%dT00:00:00.000Z")`. (All years in this program come
from four-digit `%Y` inputs, so zero-padding of the year is not
observable.) -/
def format_date (d : DT) : String :=
  padNat 4 d.year ++ "-" ++ padNat 2 d.month ++ "-" ++ padNat 2 d.day ++
    "T00:00:00.000Z"

/-- Embeds `page_link` (scanner.py lines 100-104). -/
def page_link (campground_id : String) : String :=
  "https://www.recreation.gov/camping/campgrounds/" ++ campground_id ++
    "/availability"

/-- The first printed line of `driver` (scanner.py lines 138-141):
`"{}: {} site(s) with availability between {} and {}"`. -/
def summaryBetween (name : String) (n : Nat) (a b : String) : String :=
  name ++ ": " ++ toString n ++ " site(s) with availability between " ++
    a ++ " and " ++ b

/-- The second printed line of `driver` (scanner.py line 142). -/
def reservationLine (campground_id : String) : String :=
  "To make a reservation go to: " ++ page_link campground_id

/-- The upstream server for one run: the response to each monthly
availability request (keyed by the formatted `start_date` parameter)
and the response to the campground-metadata request. -/
structure Net where
  monthResp : String → HttpResp
  nameResp : HttpResp

/-- Embeds `driver` (scanner.py lines 111-144) for one run against
`net`, returning the two printed lines; `none` models an unhandled
exception anywhere in the run. The source interleaves the name fetch
with the first print; the Option stages here fail in exactly the same
runs. -/
def driver (net : Net) (campground_id input_start_date input_end_date :
    String) : Option (String × String) := do
  let start_date ← strptimeYMD input_start_date
  let end_date ← strptimeYMD input_end_date
  let months := rruleMonthly (startOfMonth start_date) end_date
  let month_params := months.map format_date
  let raw_json := get_data (month_params.map net.monthResp)
  let raw_data ← raw_json.mapM parseMonthJson
  let filtered_data ← filter_data raw_data start_date end_date
  let name ← get_campground_name net.nameResp
  pure (summaryBetween name filtered_data.length (pyStrDT start_date)
          (pyStrDT end_date),
        reservationLine campground_id)

/-- Spec-side qualification predicate, written from the spec's words
for the refinement claim about `filter_data`: the date string parses
under the fixed format, the parsed date lies in the inclusive window,
and the status equals exactly "Available". To be compared against the
source-derived `collectDates`. -/
def qualifiesSpec (start_date end_date : DT) (date_str status : String) :
    Bool :=
  (match strptimeAvail date_str with
   | some d => DT.leb start_date d && DT.leb d end_date
   | none => false) && (status == "Available")

/-- Proof-side structural restatement of `collectDates` (the
tail-append loop rewritten as direct recursion); proved equal to
`collectDates` below and used to drive inductions. -/
def collectD (start_date end_date : DT) :
    List (String × String) → Option (List String)
  | [] => some []
  | p :: rest => do
    let ok ← date_in_range start_date end_date p.1
    let tail ← collectD start_date end_date rest
    pure (if ok && p.2 == "Available" then p.1 :: tail else tail)

/-- Spec-side per-site list-append merge of two availability results
(for the claim that filtering a concatenation of record lists is the
merge of the two separate filters). -/
def mergeResults (r1 r2 : AvailResult) : AvailResult :=
  r2.foldl (fun acc p => setdefaultAppend acc p.1 p.2) r1

/-- Proof-side: the dates a list of campsite entries contributes to
one site (empty when the site does not occur or has no qualifying
dates). -/
def entriesContrib (start_date end_date : DT)
    (entries : List (String × SiteData)) (sid : String) : List String :=
  entries.flatMap (fun e =>
    if e.1 = sid then
      (collectDates start_date end_date e.2.availabilities).getD []
    else [])

/-- Proof-side: the dates one month record contributes to one site. -/
def siteContrib (start_date end_date : DT) (m : MonthData)
    (sid : String) : List String :=
  entriesContrib start_date end_date m.campsites sid

/-- Proof-side: the dates a whole run's records contribute to one
site, in record order. -/
def runContrib (start_date end_date : DT) (raw : List MonthData)
    (sid : String) : List String :=
  raw.flatMap (fun m => siteContrib start_date end_date m sid)

/-- Proof-side: how one site's lookup entry evolves when a batch of
dates is contributed to it (absent and no contribution: stays absent;
otherwise the contribution is appended). -/
def combine (o : Option (List String)) (c : List String) :
    Option (List String) :=
  if c = [] then o else some (o.getD [] ++ c)

/-- Proof-side: every availability date string in the raw data parses
under the fixed format (the condition under which `filter_data` does
not raise). -/
def AllParse (raw_data : List MonthData) : Prop :=
  ∀ m ∈ raw_data, ∀ e ∈ m.campsites, ∀ p ∈ e.2.availabilities,
    (strptimeAvail p.1).isSome = true

/-- Proof-side structural restatement of `stepRecord`'s fold over the
campsites of one record; proved equal to `stepRecord` below. -/
def stepD (start_date end_date : DT) (data : AvailResult) :
    List (String × SiteData) → Option AvailResult
  | [] => some data
  | e :: rest => do
    let dates ← collectDates start_date end_date e.2.availabilities
    stepD start_date end_date
      (if dates.isEmpty then data else setdefaultAppend data e.1 dates) rest

/-- Proof-side structural restatement of `filter_data`'s fold over the
month records; proved equal to `filter_data` below. -/
def filterD (start_date end_date : DT) (data : AvailResult) :
    List MonthData → Option AvailResult
  | [] => some data
  | m :: rest => do
    let data' ← stepRecord start_date end_date data m
    filterD start_date end_date data' rest

theorem DT.ltb_iff (a b : DT) :
    DT.ltb a b = true ↔ (a.year < b.year ∨ (a.year = b.year ∧
      (a.month < b.month ∨ (a.month = b.month ∧ a.day < b.day)))) := by
  simp [DT.ltb]

theorem DT.leb_iff (a b : DT) :
    DT.leb a b = true ↔ (a.year < b.year ∨ (a.year = b.year ∧
      (a.month < b.month ∨ (a.month = b.month ∧ a.day ≤ b.day)))) := by
  cases a; cases b
  simp [DT.leb, DT.ltb, DT.mk.injEq]
  omega

example : strptimeAvail "2020-08-29T00:00:00Z" = some ⟨2020, 8, 29⟩ := by
  decide

example : strptimeAvail "2020-8-29T00:00:00Z" = some ⟨2020, 8, 29⟩ := by
  decide

example : strptimeAvail "2020-08-30t00:00:00z" = some ⟨2020, 8, 30⟩ := by
  decide

example : strptimeAvail "2020-08- 9T00:00:00Z" = some ⟨2020, 8, 9⟩ := by
  decide

example : strptimeAvail "٢٠٢٠-08-30T00:00:00Z" = some ⟨2020, 8, 30⟩ := by
  decide

example : strptimeAvail "2020-08-1٥T00:00:00Z" = some ⟨2020, 8, 15⟩ := by
  decide

example : strptimeAvail "2020-٠8-30T00:00:00Z" = none := by decide

example : strptimeAvail "2020-08-3٠T00:00:00Z" = none := by decide

example : strptimeAvail "2020-02-30T00:00:00Z" = none := by decide

example : strptimeAvail "2020-08-29" = none := by decide

example : strptimeYMD "2020-08-29" = some ⟨2020, 8, 29⟩ := by decide

example :
    filter_data
      [⟨[("100", ⟨[("2020-08-28T00:00:00Z", "Available"),
                   ("2020-08-30T00:00:00Z", "Available")]⟩)]⟩]
      ⟨2020, 8, 29⟩ ⟨2020, 10, 30⟩ =
    some [("100", ["2020-08-30T00:00:00Z"])] := by decide

/-! ## Basic lemmas about the date order and the inner filter loop -/

theorem DT.leb_eq_not_ltb (a b : DT) : DT.leb a b = !DT.ltb b a := by
  rcases a with ⟨ay, am, ad⟩
  rcases b with ⟨y2, m2, d2⟩
  simp only [DT.leb, DT.ltb, DT.mk.injEq, ← Bool.decide_or, ← Bool.decide_and,
    ← decide_not]
  rw [decide_eq_decide]
  omega

theorem foldlM_collect (sd ed : DT)
    (f : List String → String × String → Option (List String))
    (hstep : ∀ acc p, f acc p = (date_in_range sd ed p.1).map
      (fun ok => if ok && p.2 == "Available" then acc ++ [p.1] else acc)) :
    ∀ (l : List (String × String)) (acc : List String),
      l.foldlM f acc = (collectD sd ed l).map (fun t => acc ++ t) := by
  intro l
  induction l with
  | nil => intro acc; simp [collectD]
  | cons p rest ih =>
    intro acc
    rw [List.foldlM_cons, hstep]
    cases hdr : date_in_range sd ed p.1 with
    | none => simp [collectD, hdr]
    | some ok =>
      cases hcr : collectD sd ed rest with
      | none => simp [collectD, hdr, hcr, ih]
      | some tail =>
        by_cases hb : ok = true ∧ p.2 = "Available"
        · simp [collectD, hdr, hcr, ih, hb, List.append_assoc]
        · simp [collectD, hdr, hcr, ih, hb]

theorem collectDates_eq_collectD (sd ed : DT)
    (avail : List (String × String)) :
    collectDates sd ed avail = collectD sd ed avail := by
  have hstep : ∀ (acc : List String) (p : String × String),
      (do
        let ok ← date_in_range sd ed p.1
        if !ok then pure acc
        else if p.2 ≠ "Available" then pure acc
        else pure (acc ++ [p.1]) : Option (List String)) =
      (date_in_range sd ed p.1).map
        (fun ok => if ok && p.2 == "Available" then acc ++ [p.1] else acc) := by
    intro acc p
    cases hdr : date_in_range sd ed p.1 with
    | none => simp [hdr]
    | some ok =>
      cases ok <;> by_cases hsta : p.2 = "Available" <;> simp [hdr, hsta]
  simp only [collectDates]
  rw [foldlM_collect sd ed _ (fun acc p => hstep acc p) avail []]
  simp

theorem collectD_some (sd ed : DT) (avail : List (String × String))
    (l : List String) (h : collectD sd ed avail = some l) :
    l = (avail.filter (fun p => qualifiesSpec sd ed p.1 p.2)).map
          Prod.fst := by
  induction avail generalizing l with
  | nil =>
    simp only [collectD, Option.some_inj] at h
    simp [← h]
  | cons p rest ih =>
    simp only [collectD] at h
    cases hpd : strptimeAvail p.1 with
    | none => simp [date_in_range, hpd] at h
    | some dt =>
      have hdr : date_in_range sd ed p.1 =
          some (!(DT.ltb ed dt || DT.ltb dt sd)) := by
        simp only [date_in_range, hpd, Option.bind_eq_bind, Option.some_bind]
        cases hb : (DT.ltb ed dt || DT.ltb dt sd) <;> simp
      rw [hdr] at h
      cases hcr : collectD sd ed rest with
      | none => rw [hcr] at h; simp at h
      | some tail =>
        rw [hcr] at h
        simp only [Option.bind_eq_bind, Option.some_bind, Option.pure_def,
          Option.some_inj] at h
        have ht := ih tail hcr
        rw [List.filter_cons]
        cases hor : (DT.ltb ed dt || DT.ltb dt sd) with
        | false =>
          obtain ⟨h1, h2⟩ := Bool.or_eq_false_iff.mp hor
          rw [hor] at h
          have hq : qualifiesSpec sd ed p.1 p.2 = (p.2 == "Available") := by
            simp [qualifiesSpec, hpd, DT.leb_eq_not_ltb, h1, h2]
          simp only [Bool.not_false, Bool.true_and] at h
          cases hst : (p.2 == "Available") with
          | true =>
            rw [hst] at h
            simp only [if_true] at h
            simp [hq, hst, ← h, ht]
          | false =>
            rw [hst] at h
            simp only [Bool.false_eq_true, if_false] at h
            simp [hq, hst, ← h, ht]
        | true =>
          rw [hor] at h
          simp only [Bool.not_true, Bool.false_and, Bool.false_eq_true,
            if_false] at h
          have hq : qualifiesSpec sd ed p.1 p.2 = false := by
            rcases Bool.or_eq_true_iff.mp hor with h1 | h1 <;>
              simp [qualifiesSpec, hpd, DT.leb_eq_not_ltb, h1]
          simp [hq, ← h, ht]

theorem foldlM_step (sd ed : DT)
    (f : AvailResult → String × SiteData → Option AvailResult)
    (hstep : ∀ data e, f data e =
      (collectDates sd ed e.2.availabilities).map
        (fun dates => if dates.isEmpty then data
                      else setdefaultAppend data e.1 dates)) :
    ∀ (entries : List (String × SiteData)) (data : AvailResult),
      entries.foldlM f data = stepD sd ed data entries := by
  intro entries
  induction entries with
  | nil => intro data; simp [stepD]
  | cons e rest ih =>
    intro data
    rw [List.foldlM_cons, hstep]
    cases hcd : collectDates sd ed e.2.availabilities with
    | none => simp [stepD, hcd]
    | some dates => simp [stepD, hcd, ih]

theorem stepRecord_eq_stepD (sd ed : DT) (m : MonthData)
    (data : AvailResult) :
    stepRecord sd ed data m = stepD sd ed data m.campsites := by
  have hstep : ∀ (data : AvailResult) (e : String × SiteData),
      (do
        let dates ← collectDates sd ed e.2.availabilities
        pure (if dates.isEmpty then data
              else setdefaultAppend data e.1 dates) : Option AvailResult) =
      (collectDates sd ed e.2.availabilities).map
        (fun dates => if dates.isEmpty then data
                      else setdefaultAppend data e.1 dates) := by
    intro data e
    cases hcd : collectDates sd ed e.2.availabilities <;> simp [hcd]
  simp only [stepRecord]
  exact foldlM_step sd ed _ (fun data e => hstep data e) m.campsites data

theorem filter_data_eq_filterD (sd ed : DT) (raw : List MonthData) :
    ∀ (data : AvailResult),
      raw.foldlM (stepRecord sd ed) data = filterD sd ed data raw := by
  induction raw with
  | nil => intro data; simp [filterD]
  | cons m rest ih =>
    intro data
    simp only [List.foldlM_cons, filterD]
    cases hst : stepRecord sd ed data m with
    | none => simp [hst]
    | some data2 => simp [hst, ih]

theorem filter_data_filterD (sd ed : DT) (raw : List MonthData) :
    filter_data raw sd ed = filterD sd ed [] raw := by
  simpa [filter_data] using filter_data_eq_filterD sd ed raw []

/-! ## C1: the qualification condition of the Availability Filter -/

/-- C1: a (date string, status) pair of a site's availabilities
contributes a date to the filter's output if and only if the date
string parses under the fixed format `YYYY-MM-DDT00:00:00Z`, the
parsed date satisfies `start_date <= date <= end_date` (inclusive on
both boundaries), and the status string equals exactly "Available":
the list of dates the inner loop of `filter_data` collects for a site
is exactly the first components of the pairs satisfying the spec's
qualification predicate. -/
theorem claim_C1_qualification (start_date end_date : DT)
    (avail : List (String × String)) (dates : List String)
    (h : collectDates start_date end_date avail = some dates) :
    dates = (avail.filter (fun p =>
      qualifiesSpec start_date end_date p.1 p.2)).map Prod.fst := by
  rw [collectDates_eq_collectD] at h
  exact collectD_some start_date end_date avail dates h

/-- Witness for C1 at the spec's scenario-A window: the start and end
boundary dates qualify, a lowercase-t/z date string (which CPython's
case-insensitive strptime accepts) qualifies, a date before the window
and one after it are excluded, and statuses "Reserved",
"Not Available", "Not Reserved" and "" are excluded even in range. -/
theorem claim_C1_witness :
    ["2020-08-29T00:00:00Z", "2020-10-30T00:00:00Z",
     "2020-09-05t00:00:00z"] =
      ([("2020-08-28T00:00:00Z", "Available"),
        ("2020-08-29T00:00:00Z", "Available"),
        ("2020-10-30T00:00:00Z", "Available"),
        ("2020-10-31T00:00:00Z", "Available"),
        ("2020-09-05t00:00:00z", "Available"),
        ("2020-09-01T00:00:00Z", "Reserved"),
        ("2020-09-10T00:00:00Z", "Not Available"),
        ("2020-09-11T00:00:00Z", "Not Reserved"),
        ("2020-09-12T00:00:00Z", "")].filter (fun p =>
          qualifiesSpec ⟨2020, 8, 29⟩ ⟨2020, 10, 30⟩ p.1 p.2)).map
        Prod.fst :=
  claim_C1_qualification ⟨2020, 8, 29⟩ ⟨2020, 10, 30⟩ _ _ (by decide)

/-! ## C5: the Data Fetcher's skip behavior -/

theorem get_data_foldl (f : List Json → HttpResp → List Json)
    (hstep : ∀ data r, f data r =
      if (r.status == 200 && pyTruthy r.body) = true then data ++ [r.body]
      else data) :
    ∀ (rs : List HttpResp) (acc : List Json),
      rs.foldl f acc = acc ++ (rs.filter
        (fun r => r.status == 200 && pyTruthy r.body)).map HttpResp.body := by
  intro rs
  induction rs with
  | nil => intro acc; simp
  | cons r rs ih =>
    intro acc
    rw [List.foldl_cons, hstep, List.filter_cons]
    cases hb : (r.status == 200 && pyTruthy r.body) <;>
      simp [hb, ih, List.append_assoc]

theorem get_data_aux (rs : List HttpResp) (acc : List Json) :
    rs.foldl (fun data r =>
      match send_request r with
      | none => data
      | some j => if pyTruthy j then data ++ [j] else data) acc =
    acc ++ (rs.filter
      (fun r => r.status == 200 && pyTruthy r.body)).map HttpResp.body := by
  refine get_data_foldl _ ?_ rs acc
  intro data r
  by_cases h200 : r.status = 200
  · by_cases ht : pyTruthy r.body <;> simp [send_request, h200, ht]
  · simp [send_request, h200]

/-- C5 counterexample: a response with success status 200 whose parsed
body is the empty JSON object is not appended by `get_data` (Python
`if resp:` drops falsy bodies), so the returned list is not the list
of parsed bodies of the successfully fetched months. -/
theorem claim_C5_counterexample :
    get_data [⟨200, Json.obj []⟩] = [] ∧
      [Json.obj []] ≠ ([] : List Json) := by
  constructor
  · rfl
  · simp

/-- C5 amended: the Data Fetcher returns exactly the parsed bodies of
the responses that have success status 200 AND a truthy parsed body
(a 200 response with a falsy body, e.g. an empty JSON object, is also
skipped); any non-success month is skipped without aborting, so no
single month's failure prevents the remaining months from being
collected. -/
theorem claim_C5_amended (resps : List HttpResp) :
    get_data resps = (resps.filter
      (fun r => r.status == 200 && pyTruthy r.body)).map HttpResp.body := by
  simpa [get_data] using get_data_aux resps []

/-! ## C3: values of the Availability Result are never empty -/

theorem mem_setdefaultAppend (data : AvailResult) (k : String)
    (v : List String) (p : String × List String)
    (h : p ∈ setdefaultAppend data k v) :
    p ∈ data ∨ p.2 = v ∨ ∃ q ∈ data, p.2 = q.2 ++ v := by
  induction data with
  | nil =>
    simp only [setdefaultAppend, List.mem_singleton] at h
    subst h
    simp
  | cons e rest ih =>
    obtain ⟨k2, v2⟩ := e
    simp only [setdefaultAppend] at h
    by_cases hk : k2 = k
    · rw [if_pos hk] at h
      rcases List.mem_cons.mp h with h1 | h1
      · subst h1
        right; right
        exact ⟨(k2, v2), by simp⟩
      · left; simp [h1]
    · rw [if_neg hk] at h
      rcases List.mem_cons.mp h with h1 | h1
      · left; simp [h1]
      · rcases ih h1 with h2 | h2 | ⟨q, hq, hq2⟩
        · left; simp [h2]
        · right; left; exact h2
        · right; right; exact ⟨q, by simp [hq], hq2⟩

theorem stepD_nonempty (sd ed : DT) :
    ∀ (entries : List (String × SiteData)) (data r : AvailResult),
      (∀ p ∈ data, p.2 ≠ []) → stepD sd ed data entries = some r →
      ∀ p ∈ r, p.2 ≠ [] := by
  intro entries
  induction entries with
  | nil =>
    intro data r hinv h
    simp only [stepD, Option.some_inj] at h
    subst h; exact hinv
  | cons e rest ih =>
    intro data r hinv h
    simp only [stepD] at h
    cases hcd : collectDates sd ed e.2.availabilities with
    | none => simp [hcd] at h
    | some dates =>
      rw [hcd] at h
      simp only [Option.bind_eq_bind, Option.some_bind] at h
      refine ih _ r ?_ h
      by_cases hde : dates.isEmpty
      · simpa [hde] using hinv
      · rw [if_neg hde]
        intro p hp
        rcases mem_setdefaultAppend data e.1 dates p hp with h1 | h1 | ⟨q, _, hq2⟩
        · exact hinv p h1
        · rw [h1]
          simpa using hde
        · rw [hq2]
          simp only [ne_eq, List.append_eq_nil, not_and]
          intro
          simpa using hde

theorem filterD_nonempty (sd ed : DT) :
    ∀ (raw : List MonthData) (data r : AvailResult),
      (∀ p ∈ data, p.2 ≠ []) → filterD sd ed data raw = some r →
      ∀ p ∈ r, p.2 ≠ [] := by
  intro raw
  induction raw with
  | nil =>
    intro data r hinv h
    simp only [filterD, Option.some_inj] at h
    subst h; exact hinv
  | cons m rest ih =>
    intro data r hinv h
    simp only [filterD] at h
    cases hst : stepRecord sd ed data m with
    | none => simp [hst] at h
    | some data2 =>
      rw [hst] at h
      simp only [Option.bind_eq_bind, Option.some_bind] at h
      refine ih data2 r ?_ h
      rw [stepRecord_eq_stepD] at hst
      exact stepD_nonempty sd ed m.campsites data data2 hinv hst

/-- C3: every value of the mapping returned by the Availability Filter
is a non-empty list; a site with zero qualifying dates never appears
as a key of `filter_data`'s result. -/
theorem claim_C3_nonempty_values (raw_data : List MonthData)
    (start_date end_date : DT) (r : AvailResult)
    (h : filter_data raw_data start_date end_date = some r) :
    ∀ p ∈ r, p.2 ≠ [] := by
  rw [filter_data_filterD] at h
  exact filterD_nonempty start_date end_date raw_data [] r (by simp) h

/-- Witness for C3: a concrete run with one all-"Reserved" site (which
is omitted) and one site with a qualifying date (whose list is
non-empty). -/
theorem claim_C3_witness :
    (["2020-08-30T00:00:00Z"] : List String) ≠ [] :=
  claim_C3_nonempty_values
    [⟨[("100", ⟨[("2020-08-28T00:00:00Z", "Available"),
                 ("2020-08-30T00:00:00Z", "Available")]⟩),
       ("101", ⟨[("2020-08-30T00:00:00Z", "Reserved")]⟩)]⟩]
    ⟨2020, 8, 29⟩ ⟨2020, 10, 30⟩ [("100", ["2020-08-30T00:00:00Z"])]
    (by decide) ("100", ["2020-08-30T00:00:00Z"]) (by decide)

/-! ## C9, C10: a malformed availability date aborts the whole run -/

theorem date_in_range_of_parse (sd ed : DT) (s : String) (dt : DT)
    (hpd : strptimeAvail s = some dt) :
    date_in_range sd ed s = some (!(DT.ltb ed dt || DT.ltb dt sd)) := by
  simp only [date_in_range, hpd, Option.bind_eq_bind, Option.some_bind]
  cases hb : (DT.ltb ed dt || DT.ltb dt sd) <;> simp

theorem collectD_isSome (sd ed : DT) (avail : List (String × String)) :
    (collectD sd ed avail).isSome =
      avail.all (fun p => (strptimeAvail p.1).isSome) := by
  induction avail with
  | nil => simp [collectD]
  | cons p rest ih =>
    simp only [collectD, List.all_cons]
    cases hpd : strptimeAvail p.1 with
    | none => simp [date_in_range, hpd]
    | some dt =>
      rw [date_in_range_of_parse sd ed p.1 dt hpd]
      cases hcr : collectD sd ed rest with
      | none => simp [hcr, hpd, ← ih]
      | some tail => simp [hcr, hpd, ← ih]

theorem stepD_isSome (sd ed : DT) :
    ∀ (entries : List (String × SiteData)) (data : AvailResult),
      (stepD sd ed data entries).isSome =
        entries.all (fun e =>
          e.2.availabilities.all (fun p => (strptimeAvail p.1).isSome)) := by
  intro entries
  induction entries with
  | nil => intro data; simp [stepD]
  | cons e rest ih =>
    intro data
    simp only [stepD, List.all_cons]
    cases hcd : collectDates sd ed e.2.availabilities with
    | none =>
      have h1 : (collectDates sd ed e.2.availabilities).isSome = false := by
        rw [hcd]; rfl
      rw [collectDates_eq_collectD, collectD_isSome] at h1
      simp [hcd, h1]
    | some dates =>
      have h1 : (collectDates sd ed e.2.availabilities).isSome = true := by
        rw [hcd]; rfl
      rw [collectDates_eq_collectD, collectD_isSome] at h1
      simp [hcd, h1, ih]

theorem filterD_isSome (sd ed : DT) :
    ∀ (raw : List MonthData) (data : AvailResult),
      (filterD sd ed data raw).isSome =
        raw.all (fun m => m.campsites.all (fun e =>
          e.2.availabilities.all (fun p => (strptimeAvail p.1).isSome))) := by
  intro raw
  induction raw with
  | nil => intro data; simp [filterD]
  | cons m rest ih =>
    intro data
    simp only [filterD, List.all_cons]
    cases hst : stepRecord sd ed data m with
    | none =>
      have h1 : (stepRecord sd ed data m).isSome = false := by rw [hst]; rfl
      rw [stepRecord_eq_stepD, stepD_isSome] at h1
      simp [hst, h1]
    | some data2 =>
      have h1 : (stepRecord sd ed data m).isSome = true := by rw [hst]; rfl
      rw [stepRecord_eq_stepD, stepD_isSome] at h1
      simp [hst, h1, ih]

theorem filter_data_isSome (raw_data : List MonthData) (sd ed : DT) :
    (filter_data raw_data sd ed).isSome =
      raw_data.all (fun m => m.campsites.all (fun e =>
        e.2.availabilities.all (fun p => (strptimeAvail p.1).isSome))) := by
  rw [filter_data_filterD]
  exact filterD_isSome sd ed raw_data []

theorem filter_data_none_of_malformed (raw_data : List MonthData)
    (sd ed : DT) (m : MonthData) (e : String × SiteData)
    (p : String × String) (hm : m ∈ raw_data) (he : e ∈ m.campsites)
    (hp : p ∈ e.2.availabilities) (hbad : strptimeAvail p.1 = none) :
    filter_data raw_data sd ed = none := by
  have hs := filter_data_isSome raw_data sd ed
  cases hfd : filter_data raw_data sd ed with
  | none => rfl
  | some r =>
    exfalso
    rw [hfd, Option.isSome_some] at hs
    have hall := hs.symm
    rw [List.all_eq_true] at hall
    have h1 := hall m hm
    rw [List.all_eq_true] at h1
    have h2 := h1 e he
    rw [List.all_eq_true] at h2
    have h3 := h2 p hp
    rw [hbad] at h3
    simp at h3

/-- C9: if any availability date string in the raw data fails to parse
under the fixed format `YYYY-MM-DDT00:00:00Z`, `filter_data` raises an
unhandled error that aborts the whole run (modelled by `none`): no
partial result is produced and no per-entry skip occurs. -/
theorem claim_C9_malformed_aborts (raw_data : List MonthData)
    (start_date end_date : DT)
    (h : ∃ m ∈ raw_data, ∃ e ∈ m.campsites, ∃ p ∈ e.2.availabilities,
      strptimeAvail p.1 = none) :
    filter_data raw_data start_date end_date = none := by
  obtain ⟨m, hm, e, he, p, hp, hbad⟩ := h
  exact filter_data_none_of_malformed raw_data start_date end_date m e p
    hm he hp hbad

/-- Witness for C9: a record whose only availability has the malformed
date string "2020-08-32T00:00:00Z" (day 32) with status "Available"
makes the whole filter abort, even though another site has a valid
qualifying date. -/
theorem claim_C9_witness :
    filter_data
      [⟨[("100", ⟨[("2020-08-30T00:00:00Z", "Available")]⟩),
         ("101", ⟨[("2020-08-32T00:00:00Z", "Available")]⟩)]⟩]
      ⟨2020, 8, 1⟩ ⟨2020, 12, 31⟩ = none :=
  claim_C9_malformed_aborts _ ⟨2020, 8, 1⟩ ⟨2020, 12, 31⟩ (by decide)

/-- C10: the range check (which parses the date string) runs before
the status check on every (date, status) pair, so a malformed date
string aborts the run even when its status is not "Available". -/
theorem claim_C10_parse_before_status (raw_data : List MonthData)
    (start_date end_date : DT) (m : MonthData) (e : String × SiteData)
    (p : String × String) (hm : m ∈ raw_data) (he : e ∈ m.campsites)
    (hp : p ∈ e.2.availabilities) (hbad : strptimeAvail p.1 = none)
    (hst : p.2 ≠ "Available") :
    filter_data raw_data start_date end_date = none :=
  filter_data_none_of_malformed raw_data start_date end_date m e p
    hm he hp hbad

/-- Witness for C10: a malformed date attached to a "Reserved" entry
still causes the hard failure. -/
theorem claim_C10_witness :
    filter_data
      [⟨[("200", ⟨[("2020-09-31T00:00:00Z", "Reserved")]⟩)]⟩]
      ⟨2020, 9, 1⟩ ⟨2020, 9, 30⟩ = none :=
  claim_C10_parse_before_status _ ⟨2020, 9, 1⟩ ⟨2020, 9, 30⟩
    ⟨[("200", ⟨[("2020-09-31T00:00:00Z", "Reserved")]⟩)]⟩
    ("200", ⟨[("2020-09-31T00:00:00Z", "Reserved")]⟩)
    ("2020-09-31T00:00:00Z", "Reserved")
    (by decide) (by decide) (by decide) (by decide) (by decide)

/-! ## C2: the Month Enumerator -/

theorem addMonth1_day (d : DT) : (addMonth1 d).day = d.day := by
  rcases d with ⟨y, m, dd⟩
  simp only [addMonth1]
  split <;> rfl

theorem addMonth1_month_bounds (d : DT) (h1 : 1 ≤ d.month)
    (h2 : d.month ≤ 12) :
    1 ≤ (addMonth1 d).month ∧ (addMonth1 d).month ≤ 12 := by
  rcases d with ⟨y, m, dd⟩
  simp only [addMonth1]
  split <;> simp_all <;> omega

theorem monthIdx_addMonth1 (d : DT) (h1 : 1 ≤ d.month)
    (h2 : d.month ≤ 12) :
    monthIdx (addMonth1 d) = monthIdx d + 1 := by
  rcases d with ⟨y, m, dd⟩
  simp only [addMonth1, monthIdx]
  split <;> simp_all <;> omega

theorem ofMonthIdx_monthIdx (d : DT) (hd : d.day = 1) (h1 : 1 ≤ d.month)
    (h2 : d.month ≤ 12) : ofMonthIdx (monthIdx d) = d := by
  rcases d with ⟨y, m, dd⟩
  simp only [ofMonthIdx, monthIdx, DT.mk.injEq] at *
  omega

theorem ofMonthIdx_ltb (i j : Nat) (h : i < j) :
    DT.ltb (ofMonthIdx i) (ofMonthIdx j) = true := by
  rw [DT.ltb_iff]
  simp only [ofMonthIdx]
  omega

theorem leb_iff_monthIdx (cur u : DT) (hd : cur.day = 1)
    (h1 : 1 ≤ cur.month) (h2 : cur.month ≤ 12) (hu1 : 1 ≤ u.day)
    (hu2 : 1 ≤ u.month) (hu3 : u.month ≤ 12) :
    DT.leb cur u = true ↔ monthIdx cur ≤ monthIdx u := by
  rw [DT.leb_iff]
  rcases cur with ⟨y, m, dd⟩
  rcases u with ⟨y2, m2, d2⟩
  simp only [monthIdx] at *
  omega

theorem rruleMonthlyAux_closed_form :
    ∀ (n : Nat) (cur u : DT), cur.day = 1 → 1 ≤ cur.month →
      cur.month ≤ 12 → 1 ≤ u.day → 1 ≤ u.month → u.month ≤ 12 →
      monthIdx u + 1 - monthIdx cur = n →
      rruleMonthlyAux n cur u =
        (List.range n).map (fun i => ofMonthIdx (monthIdx cur + i)) := by
  intro n
  induction n with
  | zero =>
    intro cur u hd h1 h2 hu1 hu2 hu3 hn
    simp [rruleMonthlyAux]
  | succ k ih =>
    intro cur u hd h1 h2 hu1 hu2 hu3 hn
    rw [rruleMonthlyAux, if_pos]
    · have hstep := monthIdx_addMonth1 cur h1 h2
      obtain ⟨hb1, hb2⟩ := addMonth1_month_bounds cur h1 h2
      have hrec := ih (addMonth1 cur) u (by rw [addMonth1_day, hd]) hb1 hb2
        hu1 hu2 hu3 (by omega)
      rw [hrec, List.range_succ_eq_map, List.map_cons, List.map_map]
      congr 1
      · rw [Nat.add_zero, ofMonthIdx_monthIdx cur hd h1 h2]
      · apply List.map_congr_left
        intro i _
        simp only [Function.comp_apply, hstep]
        congr 1
        omega
    · refine ⟨h1, h2, ?_⟩
      rw [leb_iff_monthIdx cur u hd h1 h2 hu1 hu2 hu3]
      omega

theorem rruleMonthly_closed_form (cur u : DT) (hd : cur.day = 1)
    (h1 : 1 ≤ cur.month) (h2 : cur.month ≤ 12) (hu1 : 1 ≤ u.day)
    (hu2 : 1 ≤ u.month) (hu3 : u.month ≤ 12) :
    rruleMonthly cur u =
      (List.range (monthIdx u + 1 - monthIdx cur)).map
        (fun i => ofMonthIdx (monthIdx cur + i)) :=
  rruleMonthlyAux_closed_form (monthIdx u + 1 - monthIdx cur) cur u
    hd h1 h2 hu1 hu2 hu3 rfl

/-- C2: for a query window with start <= end whose span covers N
calendar months inclusive (N = monthIdx e + 1 - monthIdx s), the Month
Enumerator (the rrule call of `driver`, started at the first of
start's month and bounded by the end date) produces exactly N markers,
strictly increasing, each the 1st of its month, beginning with the
first of start's month and ending in end's month. (When start and end
fall in the same month, N = 1, so the sequence has exactly one
element.) -/
theorem claim_C2_month_enumerator (s e : DT)
    (hs1 : 1 ≤ s.month) (hs2 : s.month ≤ 12) (hs3 : 1 ≤ s.day)
    (he1 : 1 ≤ e.month) (he2 : e.month ≤ 12) (he3 : 1 ≤ e.day)
    (hse : DT.leb s e = true) :
    (rruleMonthly (startOfMonth s) e).length =
        monthIdx e + 1 - monthIdx s ∧
      List.Chain' (fun a b => DT.ltb a b = true)
        (rruleMonthly (startOfMonth s) e) ∧
      (∀ x ∈ rruleMonthly (startOfMonth s) e, x.day = 1) ∧
      (rruleMonthly (startOfMonth s) e).head? = some (startOfMonth s) ∧
      ((rruleMonthly (startOfMonth s) e).getLast?).map
          (fun x => (x.year, x.month)) = some (e.year, e.month) := by
  have hidx : monthIdx (startOfMonth s) = monthIdx s := rfl
  have hle : monthIdx s ≤ monthIdx e := by
    rw [DT.leb_iff] at hse
    rcases s with ⟨y, m, d⟩
    rcases e with ⟨y2, m2, d2⟩
    simp only [monthIdx] at *
    omega
  obtain ⟨k, hk⟩ : ∃ k, monthIdx e + 1 - monthIdx s = k + 1 :=
    ⟨monthIdx e - monthIdx s, by omega⟩
  have hcf := rruleMonthly_closed_form (startOfMonth s) e rfl
    hs1 hs2 he3 he1 he2
  rw [hidx, hk] at hcf
  rw [hcf]
  refine ⟨by simp [hk], ?_, ?_, ?_, ?_⟩
  · rw [List.chain'_map, List.chain'_range_succ]
    intro i hi
    exact ofMonthIdx_ltb (monthIdx s + i) (monthIdx s + Nat.succ i)
      (by omega)
  · intro x hx
    rw [List.mem_map] at hx
    obtain ⟨i, _, hxi⟩ := hx
    rw [← hxi]
    rfl
  · rw [List.range_succ_eq_map, List.map_cons]
    simp only [List.head?_cons, Nat.add_zero]
    exact congrArg some (ofMonthIdx_monthIdx (startOfMonth s) rfl hs1 hs2)
  · rw [List.range_succ, List.map_append, List.map_cons, List.map_nil,
      List.getLast?_concat]
    have hlast : monthIdx s + k = monthIdx e := by omega
    rw [hlast]
    have : ofMonthIdx (monthIdx e) = ⟨e.year, e.month, 1⟩ := by
      have h2 : monthIdx (⟨e.year, e.month, 1⟩ : DT) = monthIdx e := rfl
      rw [← h2, ofMonthIdx_monthIdx ⟨e.year, e.month, 1⟩ rfl he1 he2]
    rw [this]
    rfl

/-- Witness for C2 at the spec's scenario-A window 2020-08-29 to
2020-10-30: three markers, the first of August, September and October
2020. -/
theorem claim_C2_witness :
    (rruleMonthly (startOfMonth ⟨2020, 8, 29⟩) ⟨2020, 10, 30⟩).length =
        3 ∧
      (rruleMonthly (startOfMonth ⟨2020, 8, 29⟩)
          ⟨2020, 10, 30⟩).head? = some ⟨2020, 8, 1⟩ := by
  have h := claim_C2_month_enumerator ⟨2020, 8, 29⟩ ⟨2020, 10, 30⟩
    (by decide) (by decide) (by decide) (by decide) (by decide)
    (by decide) (by decide)
  exact ⟨by rw [h.1]; rfl, h.2.2.2.1⟩

/-! ## C4: accumulation across month records (merge law) -/

theorem mergeResults_nil (X : AvailResult) : mergeResults X [] = X := rfl

theorem mergeResults_cons (X : AvailResult) (k : String) (v : List String)
    (t : AvailResult) :
    mergeResults X ((k, v) :: t) = mergeResults (setdefaultAppend X k v) t :=
  rfl

theorem setdefaultAppend_append (X : AvailResult) (k : String)
    (v1 v2 : List String) :
    setdefaultAppend (setdefaultAppend X k v1) k v2 =
      setdefaultAppend X k (v1 ++ v2) := by
  induction X with
  | nil => simp [setdefaultAppend]
  | cons e rest ih =>
    obtain ⟨k2, w⟩ := e
    by_cases hk : k2 = k
    · simp [setdefaultAppend, hk, List.append_assoc]
    · simp [setdefaultAppend, hk, ih]

theorem mem_keys_setdefaultAppend (X : AvailResult) (k : String)
    (v : List String) : k ∈ (setdefaultAppend X k v).map Prod.fst := by
  induction X with
  | nil => simp [setdefaultAppend]
  | cons e rest ih =>
    obtain ⟨k2, w⟩ := e
    by_cases hk : k2 = k
    · simp [setdefaultAppend, hk]
    · simp only [setdefaultAppend, if_neg hk, List.map_cons, List.mem_cons]
      right
      exact ih

theorem keys_setdefaultAppend_of_mem (X : AvailResult) (k : String)
    (v : List String) (h : k ∈ X.map Prod.fst) :
    (setdefaultAppend X k v).map Prod.fst = X.map Prod.fst := by
  induction X with
  | nil => simp at h
  | cons e rest ih =>
    obtain ⟨k2, w⟩ := e
    by_cases hk : k2 = k
    · simp [setdefaultAppend, hk]
    · have h2 : k ∈ rest.map Prod.fst := by
        rcases List.mem_cons.mp h with h1 | h1
        · exact absurd h1.symm hk
        · exact h1
      simp [setdefaultAppend, hk, ih h2]

theorem keys_setdefaultAppend_of_not_mem (X : AvailResult) (k : String)
    (v : List String) (h : k ∉ X.map Prod.fst) :
    (setdefaultAppend X k v).map Prod.fst = X.map Prod.fst ++ [k] := by
  induction X with
  | nil => simp [setdefaultAppend]
  | cons e rest ih =>
    obtain ⟨k2, w⟩ := e
    have hk : k2 ≠ k := by
      intro hcon
      exact h (by simp [hcon])
    have h2 : k ∉ rest.map Prod.fst := by
      intro hcon
      exact h (by simp [hcon])
    simp [setdefaultAppend, hk, ih h2]

theorem mem_keys_setdefaultAppend_mono (X : AvailResult) (k k2 : String)
    (v : List String) (h : k ∈ X.map Prod.fst) :
    k ∈ (setdefaultAppend X k2 v).map Prod.fst := by
  by_cases hm : k2 ∈ X.map Prod.fst
  · rw [keys_setdefaultAppend_of_mem X k2 v hm]; exact h
  · rw [keys_setdefaultAppend_of_not_mem X k2 v hm]
    simp [h]

theorem nodup_keys_setdefaultAppend (X : AvailResult) (k : String)
    (v : List String) (h : (X.map Prod.fst).Nodup) :
    ((setdefaultAppend X k v).map Prod.fst).Nodup := by
  by_cases hm : k ∈ X.map Prod.fst
  · rw [keys_setdefaultAppend_of_mem X k v hm]; exact h
  · rw [keys_setdefaultAppend_of_not_mem X k v hm]
    simp [List.nodup_append, h, hm]

theorem setdefaultAppend_comm (X : AvailResult) (k k2 : String)
    (v v2 : List String) (hne : k2 ≠ k) (hmem : k ∈ X.map Prod.fst) :
    setdefaultAppend (setdefaultAppend X k2 v2) k v =
      setdefaultAppend (setdefaultAppend X k v) k2 v2 := by
  induction X with
  | nil => simp at hmem
  | cons e rest ih =>
    obtain ⟨ke, w⟩ := e
    have hkk2 : ¬(k = k2) := fun hcon => hne hcon.symm
    by_cases h1 : ke = k
    · have h1b : ke ≠ k2 := by rw [h1]; exact fun hcon => hne hcon.symm
      simp [setdefaultAppend, h1, h1b, hkk2]
    · by_cases h2 : ke = k2
      · simp [setdefaultAppend, h1, h2, hne]
      · have hm2 : k ∈ rest.map Prod.fst := by
          rcases List.mem_cons.mp hmem with hcon | hok
          · exact absurd hcon.symm h1
          · exact hok
        simp [setdefaultAppend, h1, h2, ih hm2]

theorem setdefaultAppend_mergeResults_of_not_mem :
    ∀ (t X : AvailResult) (k : String) (v : List String),
      k ∉ t.map Prod.fst → k ∈ X.map Prod.fst →
      setdefaultAppend (mergeResults X t) k v =
        mergeResults (setdefaultAppend X k v) t := by
  intro t
  induction t with
  | nil => intro X k v _ _; rfl
  | cons e tt ih =>
    intro X k v hnt hmem
    obtain ⟨k2, w⟩ := e
    have hne : k2 ≠ k := by
      intro hcon
      exact hnt (by simp [hcon])
    have hnt2 : k ∉ tt.map Prod.fst := by
      intro hcon
      exact hnt (by simp [hcon])
    rw [mergeResults_cons, mergeResults_cons]
    rw [ih (setdefaultAppend X k2 w) k v hnt2
      (mem_keys_setdefaultAppend_mono X k k2 w hmem)]
    rw [setdefaultAppend_comm X k k2 v w hne hmem]

theorem setdefaultAppend_mergeResults :
    ∀ (r2 r1 : AvailResult) (k : String) (v : List String),
      (r2.map Prod.fst).Nodup →
      setdefaultAppend (mergeResults r1 r2) k v =
        mergeResults r1 (setdefaultAppend r2 k v) := by
  intro r2
  induction r2 with
  | nil => intro r1 k v _; rfl
  | cons e t ih =>
    intro r1 k v hnd
    obtain ⟨k2, w⟩ := e
    simp only [List.map_cons, List.nodup_cons] at hnd
    obtain ⟨hk2nt, hndt⟩ := hnd
    by_cases hk : k2 = k
    · subst hk
      have hsda : setdefaultAppend ((k2, w) :: t) k2 v = (k2, w ++ v) :: t := by
        simp [setdefaultAppend]
      rw [mergeResults_cons, hsda, mergeResults_cons]
      rw [setdefaultAppend_mergeResults_of_not_mem t
        (setdefaultAppend r1 k2 w) k2 v hk2nt
        (mem_keys_setdefaultAppend r1 k2 w)]
      rw [setdefaultAppend_append r1 k2 w v]
    · have hsda : setdefaultAppend ((k2, w) :: t) k v =
          (k2, w) :: setdefaultAppend t k v := by
        simp [setdefaultAppend, hk]
      rw [mergeResults_cons, hsda, mergeResults_cons]
      exact ih (setdefaultAppend r1 k2 w) k v hndt

theorem stepD_nodup (sd ed : DT) :
    ∀ (entries : List (String × SiteData)) (data r : AvailResult),
      (data.map Prod.fst).Nodup → stepD sd ed data entries = some r →
      (r.map Prod.fst).Nodup := by
  intro entries
  induction entries with
  | nil =>
    intro data r hnd h
    simp only [stepD, Option.some_inj] at h
    subst h; exact hnd
  | cons e rest ih =>
    intro data r hnd h
    simp only [stepD] at h
    cases hcd : collectDates sd ed e.2.availabilities with
    | none => simp [hcd] at h
    | some dates =>
      rw [hcd] at h
      simp only [Option.bind_eq_bind, Option.some_bind] at h
      refine ih _ r ?_ h
      by_cases hde : dates.isEmpty
      · simpa [hde] using hnd
      · rw [if_neg hde]
        exact nodup_keys_setdefaultAppend data e.1 dates hnd

theorem stepD_mergeResults (sd ed : DT) :
    ∀ (entries : List (String × SiteData)) (r1 r2 : AvailResult),
      (r2.map Prod.fst).Nodup →
      stepD sd ed (mergeResults r1 r2) entries =
        (stepD sd ed r2 entries).map (mergeResults r1) := by
  intro entries
  induction entries with
  | nil => intro r1 r2 _; rfl
  | cons e rest ih =>
    intro r1 r2 hnd
    simp only [stepD]
    cases hcd : collectDates sd ed e.2.availabilities with
    | none => simp [hcd]
    | some dates =>
      simp only [hcd, Option.bind_eq_bind, Option.some_bind]
      by_cases hde : dates.isEmpty
      · simp only [if_pos hde]
        exact ih r1 r2 hnd
      · simp only [if_neg hde]
        rw [setdefaultAppend_mergeResults r2 r1 e.1 dates hnd]
        exact ih r1 (setdefaultAppend r2 e.1 dates)
          (nodup_keys_setdefaultAppend r2 e.1 dates hnd)

theorem filterD_mergeResults (sd ed : DT) :
    ∀ (raw : List MonthData) (r1 r2 : AvailResult),
      (r2.map Prod.fst).Nodup →
      filterD sd ed (mergeResults r1 r2) raw =
        (filterD sd ed r2 raw).map (mergeResults r1) := by
  intro raw
  induction raw with
  | nil => intro r1 r2 _; rfl
  | cons m rest ih =>
    intro r1 r2 hnd
    simp only [filterD, stepRecord_eq_stepD]
    rw [stepD_mergeResults sd ed m.campsites r1 r2 hnd]
    cases hst : stepD sd ed r2 m.campsites with
    | none => simp [hst]
    | some r2b =>
      simp only [hst, Option.map_some', Option.bind_eq_bind,
        Option.some_bind]
      exact ih r1 r2b (stepD_nodup sd ed m.campsites r2 r2b hnd hst)

theorem filterD_append (sd ed : DT) :
    ∀ (l1 l2 : List MonthData) (data : AvailResult),
      filterD sd ed data (l1 ++ l2) =
        (filterD sd ed data l1).bind (fun d => filterD sd ed d l2) := by
  intro l1
  induction l1 with
  | nil => intro l2 data; simp [filterD]
  | cons m t ih =>
    intro l2 data
    simp only [List.cons_append, filterD]
    cases hst : stepRecord sd ed data m with
    | none => simp [hst]
    | some d => simp [hst, ih]

/-- C4: the Availability Filter accumulates per site across month
records by list append, earlier records first, with no deduplication:
filtering the concatenation of two record lists equals the per-site
list-append merge (`mergeResults`) of filtering each record list
separately. -/
theorem claim_C4_accumulation (l1 l2 : List MonthData)
    (start_date end_date : DT) :
    filter_data (l1 ++ l2) start_date end_date =
      (filter_data l1 start_date end_date).bind (fun r1 =>
        (filter_data l2 start_date end_date).map (mergeResults r1)) := by
  rw [filter_data_filterD, filterD_append, filter_data_filterD,
    filter_data_filterD]
  cases h1 : filterD start_date end_date [] l1 with
  | none => rfl
  | some r1 =>
    simp only [Option.bind_eq_bind, Option.some_bind]
    have h2 := filterD_mergeResults start_date end_date l2 r1 [] (by simp)
    rw [mergeResults_nil] at h2
    exact h2

example :
    filter_data
      [⟨[("A", ⟨[("2020-08-30T00:00:00Z", "Available")]⟩)]⟩,
       ⟨[("B", ⟨[("2020-09-02T00:00:00Z", "Available")]⟩),
         ("A", ⟨[("2020-09-01T00:00:00Z", "Available"),
                 ("2020-08-30T00:00:00Z", "Available")]⟩)]⟩]
      ⟨2020, 8, 29⟩ ⟨2020, 10, 30⟩ =
    some [("A", ["2020-08-30T00:00:00Z", "2020-09-01T00:00:00Z",
                 "2020-08-30T00:00:00Z"]),
          ("B", ["2020-09-02T00:00:00Z"])] := by decide

/-! ## C8: permutation of month records -/

theorem combine_nil (o : Option (List String)) : combine o [] = o := by
  simp [combine]

theorem combine_assoc (o : Option (List String)) (c1 c2 : List String) :
    combine (combine o c1) c2 = combine o (c1 ++ c2) := by
  by_cases h1 : c1 = [] <;> by_cases h2 : c2 = [] <;>
    simp [combine, h1, h2, List.append_assoc]

theorem lookupSite_setdefaultAppend_self (X : AvailResult) (k : String)
    (v : List String) :
    lookupSite (setdefaultAppend X k v) k =
      some ((lookupSite X k).getD [] ++ v) := by
  induction X with
  | nil => simp [setdefaultAppend, lookupSite]
  | cons e rest ih =>
    obtain ⟨ke, w⟩ := e
    by_cases hk : ke = k
    · simp [setdefaultAppend, lookupSite, hk]
    · simp [setdefaultAppend, lookupSite, hk, ih]

theorem lookupSite_setdefaultAppend_ne (X : AvailResult) (k : String)
    (v : List String) (sid : String) (h : k ≠ sid) :
    lookupSite (setdefaultAppend X k v) sid = lookupSite X sid := by
  induction X with
  | nil => simp [setdefaultAppend, lookupSite, h]
  | cons e rest ih =>
    obtain ⟨ke, w⟩ := e
    have hsk : sid ≠ k := Ne.symm h
    by_cases hk : ke = k
    · have hke : ke ≠ sid := by rw [hk]; exact h
      simp [setdefaultAppend, lookupSite, hk, hke, h]
    · by_cases hks : ke = sid
      · simp [setdefaultAppend, lookupSite, hk, hks, hsk]
      · simp [setdefaultAppend, lookupSite, hk, hks, ih]

theorem stepD_lookup (sd ed : DT) :
    ∀ (entries : List (String × SiteData)) (data r : AvailResult),
      stepD sd ed data entries = some r → ∀ sid,
      lookupSite r sid =
        combine (lookupSite data sid)
          (entriesContrib sd ed entries sid) := by
  intro entries
  induction entries with
  | nil =>
    intro data r h sid
    simp only [stepD, Option.some_inj] at h
    subst h
    simp [entriesContrib, combine_nil]
  | cons e rest ih =>
    intro data r h sid
    simp only [stepD] at h
    cases hcd : collectDates sd ed e.2.availabilities with
    | none => simp [hcd] at h
    | some dates =>
      rw [hcd] at h
      simp only [Option.bind_eq_bind, Option.some_bind] at h
      have hr := ih _ r h sid
      have hhead : lookupSite (if dates.isEmpty then data
            else setdefaultAppend data e.1 dates) sid =
          combine (lookupSite data sid)
            (if e.1 = sid
             then (collectDates sd ed e.2.availabilities).getD []
             else []) := by
        rw [hcd]
        by_cases hde : dates.isEmpty
        · have hdn : dates = [] := by simpa using hde
          rw [if_pos hde, hdn]
          by_cases hsid : e.1 = sid <;> simp [hsid, combine_nil]
        · rw [if_neg hde]
          have hdne : dates ≠ [] := by
            intro hcon
            rw [hcon] at hde
            simp at hde
          by_cases hsid : e.1 = sid
          · rw [← hsid, lookupSite_setdefaultAppend_self data e.1 dates]
            simp [hsid, combine, hdne]
          · rw [lookupSite_setdefaultAppend_ne data e.1 dates sid hsid]
            simp [hsid, combine_nil]
      rw [hr, hhead, combine_assoc]
      congr 1

theorem filterD_lookup (sd ed : DT) :
    ∀ (raw : List MonthData) (data r : AvailResult),
      filterD sd ed data raw = some r → ∀ sid,
      lookupSite r sid =
        combine (lookupSite data sid) (runContrib sd ed raw sid) := by
  intro raw
  induction raw with
  | nil =>
    intro data r h sid
    simp only [filterD, Option.some_inj] at h
    subst h
    simp [runContrib, combine_nil]
  | cons m rest ih =>
    intro data r h sid
    simp only [filterD] at h
    cases hst : stepRecord sd ed data m with
    | none => simp [hst] at h
    | some data2 =>
      rw [hst] at h
      simp only [Option.bind_eq_bind, Option.some_bind] at h
      have hr := ih data2 r h sid
      rw [stepRecord_eq_stepD] at hst
      have hhead := stepD_lookup sd ed m.campsites data data2 hst sid
      rw [hr, hhead, combine_assoc]
      congr 1

theorem filter_data_lookup (raw : List MonthData) (sd ed : DT)
    (r : AvailResult) (h : filter_data raw sd ed = some r) (sid : String) :
    lookupSite r sid = combine none (runContrib sd ed raw sid) := by
  rw [filter_data_filterD] at h
  have := filterD_lookup sd ed raw [] r h sid
  simpa [lookupSite] using this

theorem getD_combine_none (c : List String) :
    (combine none c).getD [] = c := by
  by_cases hc : c = [] <;> simp [combine, hc]

theorem combine_none_eq_none (c : List String) :
    combine none c = none ↔ c = [] := by
  by_cases hc : c = [] <;> simp [combine, hc]

/-- C8 counterexample: swapping two month records is a permutation of
the raw data, but it changes the order of a site's date list, so the
filter is not order-insensitive as claimed (the result mapping,
including the site's date list, changes). -/
theorem claim_C8_counterexample :
    [(⟨[("A", ⟨[("2020-09-01T00:00:00Z", "Available")]⟩)]⟩ : MonthData),
     ⟨[("A", ⟨[("2020-08-30T00:00:00Z", "Available")]⟩)]⟩].Perm
      [⟨[("A", ⟨[("2020-08-30T00:00:00Z", "Available")]⟩)]⟩,
       ⟨[("A", ⟨[("2020-09-01T00:00:00Z", "Available")]⟩)]⟩] ∧
    filter_data
      [⟨[("A", ⟨[("2020-08-30T00:00:00Z", "Available")]⟩)]⟩,
       ⟨[("A", ⟨[("2020-09-01T00:00:00Z", "Available")]⟩)]⟩]
      ⟨2020, 8, 29⟩ ⟨2020, 10, 30⟩ =
      some [("A", ["2020-08-30T00:00:00Z", "2020-09-01T00:00:00Z"])] ∧
    filter_data
      [⟨[("A", ⟨[("2020-09-01T00:00:00Z", "Available")]⟩)]⟩,
       ⟨[("A", ⟨[("2020-08-30T00:00:00Z", "Available")]⟩)]⟩]
      ⟨2020, 8, 29⟩ ⟨2020, 10, 30⟩ =
      some [("A", ["2020-09-01T00:00:00Z", "2020-08-30T00:00:00Z"])] ∧
    some [("A", ["2020-08-30T00:00:00Z", "2020-09-01T00:00:00Z"])] ≠
      some [("A", ["2020-09-01T00:00:00Z", "2020-08-30T00:00:00Z"])] := by
  refine ⟨by decide, by decide, by decide, by decide⟩

/-- C8 amended: permuting the month records preserves whether the
filter succeeds, which sites appear in the result, and each site's
dates up to permutation (its multiset of dates) — but not the order
within a site's date list (nor the key order), so the exact result
mapping is not preserved. -/
theorem claim_C8_permutation (raw raw' : List MonthData) (sd ed : DT)
    (hperm : raw.Perm raw') :
    ((filter_data raw sd ed).isSome = true ↔
      (filter_data raw' sd ed).isSome = true) ∧
    (∀ r r', filter_data raw sd ed = some r →
      filter_data raw' sd ed = some r' → ∀ sid,
      (lookupSite r sid = none ↔ lookupSite r' sid = none) ∧
      ((lookupSite r sid).getD []).Perm ((lookupSite r' sid).getD [])) := by
  constructor
  · rw [filter_data_isSome, filter_data_isSome, List.all_eq_true,
      List.all_eq_true]
    constructor
    · intro h x hx
      exact h x (hperm.mem_iff.mpr hx)
    · intro h x hx
      exact h x (hperm.mem_iff.mp hx)
  · intro r r' hr hr' sid
    have h1 := filter_data_lookup raw sd ed r hr sid
    have h2 := filter_data_lookup raw' sd ed r' hr' sid
    have hcperm : (runContrib sd ed raw sid).Perm
        (runContrib sd ed raw' sid) := hperm.flatMap_right _
    constructor
    · rw [h1, h2, combine_none_eq_none, combine_none_eq_none]
      constructor
      · intro h
        have h2 := hcperm
        rw [h] at h2
        exact h2.symm.eq_nil
      · intro h
        have h2 := hcperm
        rw [h] at h2
        exact h2.eq_nil
    · rw [h1, h2, getD_combine_none, getD_combine_none]
      exact hcperm

/-- Witness for C8 amended, at the counterexample's two records: the
two date lists for site "A" are permutations of each other. -/
theorem claim_C8_witness :
    ((lookupSite [("A", ["2020-08-30T00:00:00Z", "2020-09-01T00:00:00Z"])]
        "A").getD []).Perm
      ((lookupSite [("A", ["2020-09-01T00:00:00Z", "2020-08-30T00:00:00Z"])]
        "A").getD []) :=
  ((claim_C8_permutation
    [⟨[("A", ⟨[("2020-08-30T00:00:00Z", "Available")]⟩)]⟩,
     ⟨[("A", ⟨[("2020-09-01T00:00:00Z", "Available")]⟩)]⟩]
    [⟨[("A", ⟨[("2020-09-01T00:00:00Z", "Available")]⟩)]⟩,
     ⟨[("A", ⟨[("2020-08-30T00:00:00Z", "Available")]⟩)]⟩]
    ⟨2020, 8, 29⟩ ⟨2020, 10, 30⟩ (by decide)).2
    [("A", ["2020-08-30T00:00:00Z", "2020-09-01T00:00:00Z"])]
    [("A", ["2020-09-01T00:00:00Z", "2020-08-30T00:00:00Z"])]
    (by decide) (by decide) "A").2

/-! ## C6, C7: the driver's parsing and reporting -/

/-- C6 counterexample: in a concrete run the summary line is built
from the parsed datetimes (Python `str(datetime)`, i.e.
"YYYY-MM-DD 00:00:00"), not from the original caller-supplied
"YYYY-MM-DD" strings: the printed line differs from the line the
claim describes. -/
theorem claim_C6_counterexample :
    driver ⟨fun _ => ⟨200, Json.obj [("campsites", Json.obj
        [("100", Json.obj [("availabilities", Json.obj
          [("2020-08-29T00:00:00Z", Json.str "Available")])])])]⟩,
      ⟨200, Json.obj [("campground",
        Json.obj [("facility_name", Json.str "Camp Test")])]⟩⟩
      "232825" "2020-08-29" "2020-08-30" =
      some (summaryBetween "Camp Test" 1 "2020-08-29 00:00:00"
              "2020-08-30 00:00:00",
            reservationLine "232825") ∧
    summaryBetween "Camp Test" 1 "2020-08-29 00:00:00"
        "2020-08-30 00:00:00" ≠
      summaryBetween "Camp Test" 1 "2020-08-29" "2020-08-30" := by
  exact ⟨by decide, by decide⟩

/-- C6 amended: every run that reaches the reporting step prints a
summary line containing the resolved campground name, the count of
sites in the Availability Result computed by `filter_data` from the
fetched months (by C3, exactly the sites with at least one qualifying
date), and the parsed start and end dates rendered as Python
`str(datetime)` ("YYYY-MM-DD 00:00:00") — not the original
caller-supplied strings verbatim — followed by the booking-page link
line built from the campground identifier. -/
theorem claim_C6_report_shape (net : Net)
    (campground_id input_start_date input_end_date : String)
    (r : String × String)
    (h : driver net campground_id input_start_date input_end_date =
      some r) :
    ∃ sd ed raw filtered nm, strptimeYMD input_start_date = some sd ∧
      strptimeYMD input_end_date = some ed ∧
      (get_data (((rruleMonthly (startOfMonth sd) ed).map
        format_date).map net.monthResp)).mapM parseMonthJson =
          some raw ∧
      filter_data raw sd ed = some filtered ∧
      get_campground_name net.nameResp = some nm ∧
      r = (summaryBetween nm filtered.length (pyStrDT sd) (pyStrDT ed),
           reservationLine campground_id) := by
  simp only [driver, Option.bind_eq_bind] at h
  obtain ⟨sd, h1, h⟩ := Option.bind_eq_some.mp h
  obtain ⟨ed, h2, h⟩ := Option.bind_eq_some.mp h
  obtain ⟨raw, h3, h⟩ := Option.bind_eq_some.mp h
  obtain ⟨filtered, h4, h⟩ := Option.bind_eq_some.mp h
  obtain ⟨nm, h5, h⟩ := Option.bind_eq_some.mp h
  simp only [Option.pure_def, Option.some_inj] at h
  exact ⟨sd, ed, raw, filtered, nm, h1, h2, h3, h4, h5, h.symm⟩

/-- Witness for C6 amended at a concrete one-month run with one
available site (so the printed count is the filter result's size). -/
theorem claim_C6_witness :
    ∃ sd ed raw filtered nm, strptimeYMD "2020-08-29" = some sd ∧
      strptimeYMD "2020-08-30" = some ed ∧
      (get_data (((rruleMonthly (startOfMonth sd) ed).map
        format_date).map (fun _ => (⟨200, Json.obj [("campsites",
          Json.obj [("100", Json.obj [("availabilities", Json.obj
            [("2020-08-29T00:00:00Z",
              Json.str "Available")])])])]⟩ : HttpResp)))).mapM
        parseMonthJson = some raw ∧
      filter_data raw sd ed = some filtered ∧
      get_campground_name (⟨200, Json.obj [("campground",
        Json.obj [("facility_name", Json.str "Camp Test")])]⟩ :
          HttpResp) = some nm ∧
      ((summaryBetween "Camp Test" 1 "2020-08-29 00:00:00"
          "2020-08-30 00:00:00", reservationLine "232825") :
            String × String) =
        (summaryBetween nm filtered.length (pyStrDT sd) (pyStrDT ed),
         reservationLine "232825") :=
  claim_C6_report_shape
    ⟨fun _ => ⟨200, Json.obj [("campsites", Json.obj
        [("100", Json.obj [("availabilities", Json.obj
          [("2020-08-29T00:00:00Z", Json.str "Available")])])])]⟩,
      ⟨200, Json.obj [("campground",
        Json.obj [("facility_name", Json.str "Camp Test")])]⟩⟩
    "232825" "2020-08-29" "2020-08-30"
    (summaryBetween "Camp Test" 1 "2020-08-29 00:00:00"
        "2020-08-30 00:00:00", reservationLine "232825")
    (by decide)

theorem rruleMonthly_nil_of_not_leb (cur u : DT)
    (h : DT.leb cur u = false) : rruleMonthly cur u = [] := by
  unfold rruleMonthly
  cases hn : monthIdx u + 1 - monthIdx cur with
  | zero => rfl
  | succ k => simp [rruleMonthlyAux, h]

/-- C7 counterexample: with end date 2020-07-10 strictly before start
date 2020-08-29 (both well-formed), the run does NOT fail at parse
time: it completes normally, reporting zero sites. -/
theorem claim_C7_counterexample :
    driver ⟨fun _ => ⟨404, Json.null⟩,
      ⟨200, Json.obj [("campground",
        Json.obj [("facility_name", Json.str "Camp Test")])]⟩⟩
      "232825" "2020-08-29" "2020-07-10" =
      some (summaryBetween "Camp Test" 0 "2020-08-29 00:00:00"
              "2020-07-10 00:00:00",
            reservationLine "232825") ∧
    (some (summaryBetween "Camp Test" 0 "2020-08-29 00:00:00"
              "2020-07-10 00:00:00",
           reservationLine "232825") :
        Option (String × String)) ≠ none := by
  exact ⟨by decide, by decide⟩

/-- C7 amended: when both input strings parse as YYYY-MM-DD, no
failure is raised at parse time even if the end date is before the
start date; in particular, whenever the end date precedes the first
of the start date's month (so the month list is empty) and name
resolution succeeds, the run completes normally and reports zero
sites. -/
theorem claim_C7_reversed_window_completes (net : Net)
    (campground_id input_start_date input_end_date : String)
    (sd ed : DT) (nm : String)
    (h1 : strptimeYMD input_start_date = some sd)
    (h2 : strptimeYMD input_end_date = some ed)
    (hlt : DT.ltb ed (startOfMonth sd) = true)
    (hnm : get_campground_name net.nameResp = some nm) :
    driver net campground_id input_start_date input_end_date =
      some (summaryBetween nm 0 (pyStrDT sd) (pyStrDT ed),
            reservationLine campground_id) := by
  have hleb : DT.leb (startOfMonth sd) ed = false := by
    rw [DT.leb_eq_not_ltb, hlt]
    rfl
  have hmonths := rruleMonthly_nil_of_not_leb (startOfMonth sd) ed hleb
  simp [driver, h1, h2, hmonths, hnm, get_data, filter_data]
  rfl

/-- Witness for C7 amended: a concrete reversed window ending in an
earlier month. -/
theorem claim_C7_witness :
    driver ⟨fun _ => ⟨404, Json.null⟩,
      ⟨200, Json.obj [("campground",
        Json.obj [("facility_name", Json.str "North Rim")])]⟩⟩
      "111" "2020-08-29" "2019-12-31" =
      some (summaryBetween "North Rim" 0 "2020-08-29 00:00:00"
              "2019-12-31 00:00:00",
            reservationLine "111") :=
  claim_C7_reversed_window_completes _ "111" "2020-08-29" "2019-12-31"
    ⟨2020, 8, 29⟩ ⟨2019, 12, 31⟩ "North Rim"
    (by decide) (by decide) (by decide) (by decide)
